import Mathlib

/-!
Shallow embedding of the SuperSpreader market-data feed normalizer
(`src/connectors/polymarket/gamma_poll_stream.py`) and the execution layer
(`src/execution/base.py`, `src/execution/shadow.py`).

Prices and timestamps are modelled as exact rationals (ℚ); JSON scalar values
as an inductive `Val` with Python truthiness; dictionaries as association
lists with Python `dict.get` / item-assignment semantics.
-/

/-- A JSON-ish scalar value as it appears in a Gamma market record.
`null` also stands for a missing key, matching Python where `dict.get`
returns the same `None` object for a missing key and a stored null. -/
inductive Val where
  | null : Val
  | num : ℚ → Val
  | str : String → Val
  deriving DecidableEq, Repr

/-- Python truthiness of a scalar: `None`, `0` and `""` are falsy. -/
def Val.truthy : Val → Bool
  | .null => false
  | .num q => q ≠ 0
  | .str s => s ≠ ""

/-- Python `a or b` on scalars: returns `a` when `a` is truthy, else `b`. -/
def pyOr (a b : Val) : Val := if a.truthy then a else b

/-- A raw market record (a JSON object): association list of fields. -/
abbrev Record := List (String × Val)

/-- Python `m.get(k)`: the stored value, or `None` when the key is absent. -/
def Record.getv (m : Record) (k : String) : Val :=
  (m.lookup k).getD Val.null

/-- Python dict item assignment `d[k] = v`: replaces any existing binding. -/
def dictSet {α : Type} (d : List (String × α)) (k : String) (v : α) :
    List (String × α) :=
  (k, v) :: d.filter (fun p => p.1 != k)

/-- Python `str.strip()`: drop leading and trailing whitespace (structural,
so that concrete inputs evaluate in the kernel). -/
def pyStrip (s : String) : String :=
  ⟨((s.data.dropWhile Char.isWhitespace).reverse.dropWhile
      Char.isWhitespace).reverse⟩

/-- Digit-string to natural number; `none` when empty or a non-digit occurs. -/
def digits? (cs : List Char) : Option ℕ :=
  if cs.isEmpty then none
  else cs.foldlM (fun acc c =>
    if c.isDigit then some (acc * 10 + (c.toNat - 48)) else none) 0

/-- Exact-decimal model of Python `float(s)` on a string: optional sign,
integer part, optional point and fraction part (at least one digit overall). -/
def parseDecimal (s : String) : Option ℚ :=
  let t := (pyStrip s).data
  let sg : ℚ × List Char :=
    match t with
    | '-' :: r => (-1, r)
    | '+' :: r => (1, r)
    | r => (1, r)
  match (sg.2).span (fun c => c ≠ '.') with
  | (ip, []) => (digits? ip).map (fun n => sg.1 * (n : ℚ))
  | (ip, _ :: fp) =>
    if fp.contains '.' then none
    else if ip.isEmpty && fp.isEmpty then none
    else
      match (if ip.isEmpty then some 0 else digits? ip),
            (if fp.isEmpty then some 0 else digits? fp) with
      | some i, some f =>
        some (sg.1 * ((i : ℚ) + (f : ℚ) / (10 : ℚ) ^ fp.length))
      | _, _ => none

/-- The nested `_to_float` helper: `None` maps to absent, numbers coerce
exactly, strings are parsed, and any failure yields absent (never an error). -/
def toFloat? : Val → Option ℚ
  | .null => none
  | .num q => some q
  | .str s => parseDecimal s

/-- Field resolution as the code performs it:
`_to_float(m.get(k1) or m.get(k2))` — Python falsy-fallthrough `or`. -/
def resolveField (m : Record) (k1 k2 : String) : Option ℚ :=
  toFloat? (pyOr (m.getv k1) (m.getv k2))

/-- `best_bid = _to_float(m.get("bestBid") or m.get("best_bid"))`. -/
def parsedBid (m : Record) : Option ℚ := resolveField m "bestBid" "best_bid"

/-- `best_ask = _to_float(m.get("bestAsk") or m.get("best_ask"))`. -/
def parsedAsk (m : Record) : Option ℚ := resolveField m "bestAsk" "best_ask"

/-- `last_trade_px = _to_float(m.get("lastTradePrice") or m.get("last_trade_price"))`. -/
def parsedLastTrade (m : Record) : Option ℚ :=
  resolveField m "lastTradePrice" "last_trade_price"

/-- Resolution rule stated from the spec side, amended to Python truthiness:
the first spelling's value is used when it is truthy, otherwise the second
spelling's value is used; the chosen value is then coerced. -/
def firstTruthyWins (m : Record) (k1 k2 : String) : Option ℚ :=
  if (m.getv k1).truthy then toFloat? (m.getv k1) else toFloat? (m.getv k2)

/-- Top-of-book quote, as constructed by the feed
(`TopOfBook(best_bid=..., best_bid_size=None, best_ask=..., best_ask_size=None, ts=now)`). -/
structure TopOfBook where
  best_bid : Option ℚ
  best_bid_size : Option ℚ
  best_ask : Option ℚ
  best_ask_size : Option ℚ
  ts : ℚ
  deriving DecidableEq, Repr

/-- A synthesized trade print, as constructed by the feed. -/
structure TradeTick where
  market_id : String
  price : ℚ
  size : ℚ
  side : String
  ts : ℚ
  deriving DecidableEq, Repr

/-- Payload of a tape row: `asdict` of the top-of-book or of the trade. -/
inductive TapePayload where
  | tob : TopOfBook → TapePayload
  | trade : TradeTick → TapePayload
  deriving DecidableEq, Repr

/-- One `store.insert_tape(ts, market_id, kind, payload)` call. -/
structure TapeRow where
  ts : ℚ
  market_id : String
  kind : String
  payload : TapePayload
  deriving DecidableEq, Repr

/-- One `store.upsert_runtime_status(component, level, message, detail, ts)` call. -/
structure StatusUpsert where
  component : String
  level : String
  message : String
  detail : String
  ts : ℚ
  deriving DecidableEq, Repr

/-- The feed's tagged event union: `BookEvent` / `TradeEvent`. -/
inductive FeedEvent where
  | book : String → TopOfBook → FeedEvent
  | trade : String → TradeTick → FeedEvent
  deriving DecidableEq, Repr

/-- The market id an event is about. -/
def FeedEvent.marketId : FeedEvent → String
  | .book m _ => m
  | .trade m _ => m

/-- Whether an event is a `BookEvent`. -/
def FeedEvent.isBook : FeedEvent → Bool
  | .book _ _ => true
  | .trade _ _ => false

/-- Number of `BookEvent`s for a given market in an event list. -/
def bookCountFor (evs : List FeedEvent) (mid : String) : ℕ :=
  (evs.filter (fun e => e.isBook && e.marketId == mid)).length

/-- Number of `TradeEvent`s for a given market in an event list. -/
def tradeCountFor (evs : List FeedEvent) (mid : String) : ℕ :=
  (evs.filter (fun e => !e.isBook && e.marketId == mid)).length

/-- Number of tape rows of a given kind for a given market. -/
def tapeCountFor (rows : List TapeRow) (kind mid : String) : ℕ :=
  (rows.filter (fun r => r.kind == kind && r.market_id == mid)).length

/-- The per-instance observation state of `PolymarketGammaPollStream`:
`_last` maps a market to its last observed `(best_bid, best_ask)` pair and
`_last_trade_px` to its last observed trade price (possibly null). -/
structure StreamState where
  last : List (String × (Option ℚ × Option ℚ))
  lastTradePx : List (String × Option ℚ)
  deriving DecidableEq, Repr

/-- Floating tolerance `1e-9` used by the side heuristic. -/
def tol : ℚ := 1 / 1000000000

/-- The heuristic trade-side inference of the feed:
`side = "buy"` by default; hit the ask within `tol` ⇒ buy; else hit the bid
within `tol` ⇒ sell; else, when both sides are quoted, compare to the
midpoint `0.5 * (bid + ask)` (`>=` ⇒ buy). -/
def inferSide (px : ℚ) (best_bid best_ask : Option ℚ) : String :=
  match best_ask with
  | some a =>
    if |px - a| < tol then "buy"
    else
      match best_bid with
      | some b =>
        if |px - b| < tol then "sell"
        else if px ≥ (1/2 : ℚ) * (b + a) then "buy" else "sell"
      | none => "buy"
  | none =>
    match best_bid with
    | some b => if |px - b| < tol then "sell" else "buy"
    | none => "buy"

/-- The trade-print part of one market's processing: when the parsed
last-trade price is present and differs from the stored previous value,
one `trade` tape row is written and one `TradeEvent` is yielded. -/
def tradeOut (mid : String) (now : ℚ) (best_bid best_ask : Option ℚ)
    (px? : Option ℚ) (prevT : Option ℚ) : List FeedEvent × List TapeRow :=
  match px? with
  | none => ([], [])
  | some px =>
    if some px ≠ prevT then
      let trade : TradeTick :=
        ⟨mid, px, 1, inferSide px best_bid best_ask, now⟩
      ([FeedEvent.trade mid trade], [⟨now, mid, "trade", TapePayload.trade trade⟩])
    else ([], [])

/-- Per-market output of one iteration of the inner `for market_id in want` loop. -/
structure MarketOut where
  events : List FeedEvent
  tape : List TapeRow
  changed : ℕ
  observed : ℕ
  deriving DecidableEq, Repr

/-- The empty per-market output (market skipped). -/
def emptyOut : MarketOut := ⟨[], [], 0, 0⟩

/-- One iteration of the inner loop of `PolymarketGammaPollStream.events`
for a single requested market id: skip when absent from `by_id` (or falsy),
parse the three price fields, update `_last` unconditionally, write a `tob`
tape row only when the pair changed, always yield a `BookEvent`, then
update `_last_trade_px` unconditionally and emit a trade print on change. -/
def processMarket (now : ℚ) (byId : List (String × Record))
    (st : StreamState) (mid : String) : StreamState × MarketOut :=
  match byId.lookup mid with
  | none => (st, emptyOut)
  | some m =>
    if m.isEmpty then (st, emptyOut)
    else
      let best_bid := parsedBid m
      let best_ask := parsedAsk m
      let last_trade_px := parsedLastTrade m
      let prev := st.last.lookup mid
      let cur := (best_bid, best_ask)
      let last' := dictSet st.last mid cur
      let tob : TopOfBook := ⟨best_bid, none, best_ask, none, now⟩
      let tobTape : List TapeRow :=
        if prev ≠ some cur then [⟨now, mid, "tob", TapePayload.tob tob⟩] else []
      let changed : ℕ := if prev ≠ some cur then 1 else 0
      let prevT := (st.lastTradePx.lookup mid).join
      let ltp' := dictSet st.lastTradePx mid last_trade_px
      let t := tradeOut mid now best_bid best_ask last_trade_px prevT
      (⟨last', ltp'⟩,
       ⟨FeedEvent.book mid tob :: t.1, tobTape ++ t.2, changed, 1⟩)

/-- The inner loop over the requested market ids, in provider-supplied order,
threading the observation state and accumulating events, tape rows and the
`changed` / `observed` counters. -/
def processWant (now : ℚ) (byId : List (String × Record)) :
    StreamState → List String → StreamState × MarketOut
  | st, [] => (st, emptyOut)
  | st, mid :: rest =>
    let p := processMarket now byId st mid
    let r := processWant now byId p.1 rest
    (r.1, ⟨p.2.events ++ r.2.events, p.2.tape ++ r.2.tape,
           p.2.changed + r.2.changed, p.2.observed + r.2.observed⟩)

/-- Python `str()` on a scalar, as used to key `by_id` (`str(m.get("id"))`);
strings are kept verbatim, numbers are rendered canonically. -/
def pyStr : Val → String
  | .null => "None"
  | .num q => toString q
  | .str s => s

/-- Construction of the snapshot lookup `by_id`: records carrying a
non-null `id`, keyed by its string form, later records overwriting earlier. -/
def buildById (data : List Record) : List (String × Record) :=
  data.foldl (fun acc m =>
    match m.lookup "id" with
    | none => acc
    | some v => if v = Val.null then acc else dictSet acc (pyStr v) m) []

/-- The sanitized requested list
`want = [str(x) for x in (provider() or []) if str(x).strip()]`. -/
def wantOf (providerOut : List String) : List String :=
  providerOut.filter (fun s => pyStrip s != "")

/-- An exception, carrying `type(e).__name__` and `str(e)`. -/
structure Exc where
  name : String
  msg : String
  deriving DecidableEq, Repr

/-- External inputs consumed by one poll cycle: the provider's output, the
outcome of the snapshot fetch, and the wall-clock readings (`time.time()`)
at processing time and at status-upsert time. -/
structure CycleIn where
  providerOut : List String
  fetch : Except Exc (List Record)
  obsTs : ℚ
  statusTs : ℚ

/-- Observable output of one poll cycle: yielded events, tape rows written,
and runtime-status upserts performed, in order. -/
structure CycleOut where
  events : List FeedEvent
  tape : List TapeRow
  statuses : List StatusUpsert
  deriving DecidableEq, Repr

/-- One iteration of the outer `while True` loop of
`PolymarketGammaPollStream.events`: skip when the sanitized want list is
empty; on fetch failure perform the single `error` status upsert and yield
nothing; on success process every requested market then perform the `ok`
status upsert. -/
def processCycle (pollSecs : ℚ) (lim : ℤ) (st : StreamState) (c : CycleIn) :
    StreamState × CycleOut :=
  let want := wantOf c.providerOut
  if want.isEmpty then (st, ⟨[], [], []⟩)
  else
    match c.fetch with
    | .error e =>
      (st, ⟨[], [],
        [⟨"feed.gamma", "error", "gamma feed failed",
          e.name ++ ": " ++ e.msg, c.statusTs⟩]⟩)
    | .ok data =>
      let byId := buildById data
      let r := processWant c.obsTs byId st want
      (r.1, ⟨r.2.events, r.2.tape,
        [⟨"feed.gamma", "ok",
          "gamma polling ok (observed " ++ toString r.2.observed
            ++ ", changed " ++ toString r.2.changed ++ ")",
          "poll_secs=" ++ toString pollSecs ++ " limit=" ++ toString lim
            ++ " want=" ++ toString want.length,
          c.statusTs⟩]⟩)

/-- The polling loop run over a finite list of cycle inputs, concatenating
each cycle's observable output; a total function, so no cycle's failure can
terminate it. -/
def runCycles (pollSecs : ℚ) (lim : ℤ) :
    StreamState → List CycleIn → StreamState × CycleOut
  | st, [] => (st, ⟨[], [], []⟩)
  | st, c :: rest =>
    let p := processCycle pollSecs lim st c
    let r := runCycles pollSecs lim p.1 rest
    (r.1, ⟨p.2.events ++ r.2.events, p.2.tape ++ r.2.tape,
           p.2.statuses ++ r.2.statuses⟩)

/-- Metadata mapping carried by an order request / order record. -/
abbrev Meta := List (String × Val)

/-- An intent to place a resting limit order (`execution/base.py`,
frozen dataclass `OrderRequest`); `Side` is carried as its string value. -/
structure OrderRequest where
  market_id : String
  side : String
  price : ℚ
  size : ℚ
  meta : Option Meta := none

/-- An order as constructed by the shadow backend. Field set taken from the
construction site in `execution/shadow.py`
(`Order(order_id=..., ..., status="rejected", filled_size=0.0)`). -/
structure Order where
  order_id : String
  market_id : String
  side : String
  price : ℚ
  size : ℚ
  created_ts : ℚ
  status : String
  filled_size : ℚ
  deriving DecidableEq, Repr

/-- Modelled from the spec: `Fill` (§3) — the record of an execution event
affecting an order's filled quantity; its source (`trading/types.py`) is not
part of this repository's visible tree and the shadow backend never
constructs one, so only its existence matters here. -/
structure Fill where
  order_id : String
  market_id : String
  price : ℚ
  size : ℚ

/-- One `store.insert_order({**asdict(o), "meta": meta})` call: the order's
fields together with the recorded metadata. -/
structure OrderRecord where
  order : Order
  meta : Meta

namespace ShadowBroker

/-- `ShadowBroker.place_limit`: the generated uuid string and the
`time.time()` reading are passed in as the two external inputs; returns the
constructed `Order` together with the list of order-record persistence calls
performed. The recorded metadata is a copy of the request's metadata
(`dict(req.meta or {})`) tagged with `"execution_mode": "shadow"`. -/
def place_limit (req : OrderRequest) (oid : String) (now : ℚ) :
    Order × List OrderRecord :=
  let o : Order :=
    ⟨oid, req.market_id, req.side, req.price, req.size, now, "rejected", 0⟩
  let meta := dictSet (req.meta.getD []) "execution_mode" (Val.str "shadow")
  (o, [⟨o, meta⟩])

/-- `ShadowBroker.on_book`: ignores its inputs and returns no fills. -/
def on_book (market_id : String) (tob : TopOfBook) : List Fill :=
  let _ := market_id
  let _ := tob
  []

/-- `ShadowBroker.on_trade`: ignores its inputs and returns no fills. -/
def on_trade (market_id : String) (trade : TradeTick) : List Fill :=
  let _ := market_id
  let _ := trade
  []

/-- Heap-level view of the metadata handling in `place_limit`, to express
aliasing: dictionaries live at natural-number addresses; the caller's `meta`
is a reference (or `none`); `dict(req.meta or {})` allocates a fresh dict at
the next free address with the source's contents, and the execution-mode tag
is set on that fresh dict only. Returns the new heap and the address of the
recorded metadata dict. -/
def place_limit_metaHeap (h : List Meta) (metaRef : Option ℕ) :
    List Meta × ℕ :=
  let src : Meta :=
    match metaRef with
    | some r => h.getD r []
    | none => []
  (h ++ [dictSet src "execution_mode" (Val.str "shadow")], h.length)

end ShadowBroker

namespace Broker

/-- The `Broker` base class's default `on_trade` (`execution/base.py`):
ignores its inputs and returns no fills. -/
def on_trade_default (market_id : String) (trade : TradeTick) : List Fill :=
  let _ := market_id
  let _ := trade
  []

end Broker


/-- Fuel-bounded binary64 normalization over integers: scales the positive
fraction `n/d` by powers of two, tracking the binary exponent, until the
mantissa `n/d` lies in `[2^52, 2^53)`. The fuel bounds the exponent search;
`130` covers magnitudes down to about `2^-77`, far below the `1e-9`
tolerance and every price in these computations. -/
def flNorm : ℕ → ℤ → ℤ → ℤ → ℤ × ℤ × ℤ
  | 0, n, d, e => (n, d, e)
  | fuel + 1, n, d, e =>
    if n < d * 4503599627370496 then flNorm fuel (2 * n) d (e + 1)
    else if d * 9007199254740992 ≤ n then flNorm fuel n (2 * d) (e - 1)
    else (n, d, e)

/-- Round the nonnegative fraction `n/d` (with `d > 0`) to the nearest
integer, ties to even. -/
def roundNE (n d : ℤ) : ℤ :=
  let f := n / d
  let r := n - d * f
  if 2 * r < d then f
  else if d < 2 * r then f + 1
  else if f % 2 = 0 then f else f + 1

/-- `2 ^ k` as an integer, by structural doubling. -/
def pow2 : ℕ → ℤ
  | 0 => 1
  | k + 1 => 2 * pow2 k

/-- The rational `mant * 2^(-e)`. -/
def flVal (mant e : ℤ) : ℚ :=
  if 0 ≤ e then Rat.divInt mant (pow2 e.toNat)
  else Rat.divInt (mant * pow2 (-e).toNat) 1

/-- Exact rational value of the IEEE binary64 double nearest to `q` (round
to nearest, ties to even), valid on the covered normal range — which
includes every quantity in the feed's side-inference arithmetic. This is
the value the running Python program holds after `float(...)` or any float
operation. -/
def fl (q : ℚ) : ℚ :=
  if q = 0 then 0
  else if q < 0 then
    -(flVal (roundNE (flNorm 130 (-q).num ((-q).den : ℤ) 0).1
        (flNorm 130 (-q).num ((-q).den : ℤ) 0).2.1)
      (flNorm 130 (-q).num ((-q).den : ℤ) 0).2.2)
  else
    flVal (roundNE (flNorm 130 q.num (q.den : ℤ) 0).1
        (flNorm 130 q.num (q.den : ℤ) 0).2.1)
      (flNorm 130 q.num (q.den : ℤ) 0).2.2

/-- Correctly rounded binary64 subtraction. -/
def fsub (x y : ℚ) : ℚ := fl (x - y)

/-- Correctly rounded binary64 addition. -/
def fadd (x y : ℚ) : ℚ := fl (x + y)

/-- Correctly rounded binary64 multiplication. -/
def fmul (x y : ℚ) : ℚ := fl (x * y)

/-- The double value of the literal `1e-9` (slightly above the rational
`1/10^9`). -/
def tolF : ℚ := fl (1 / 1000000000)

/-- The side heuristic exactly as the program executes it in IEEE binary64:
the inputs are the doubles produced by `float(...)`, every arithmetic
result is correctly rounded, and comparisons and `abs` are exact on
doubles. The branch structure is that of `inferSide`; the two differ only
through rounding. -/
def inferSideFloat (px : ℚ) (best_bid best_ask : Option ℚ) : String :=
  match best_ask with
  | some a =>
    if |fsub px a| < tolF then "buy"
    else
      match best_bid with
      | some b =>
        if |fsub px b| < tolF then "sell"
        else if px ≥ fmul (fl (1/2)) (fadd b a) then "buy" else "sell"
      | none => "buy"
  | none =>
    match best_bid with
    | some b => if |fsub px b| < tolF then "sell" else "buy"
    | none => "buy"

/-- Sample concrete values used by the witness theorems. -/
def mRec : Record :=
  [("id", Val.str "m1"), ("bestBid", Val.num 1), ("bestAsk", Val.num 2),
   ("lastTradePrice", Val.num 2)]

/-- A one-market snapshot lookup for the witnesses. -/
def sampleById : List (String × Record) := [("m1", mRec)]

/-- A failing cycle input for the resilience witness. -/
def cErr : CycleIn :=
  ⟨["m1"], Except.error ⟨"ClientConnectorError", "cannot connect"⟩, 0, 1⟩

/-- A sample order request for the shadow-broker witness. -/
def sampleReq : OrderRequest := ⟨"m1", "buy", 1/2, 10, none⟩

/-- A snapshot lookup that does not contain market `"x"`. -/
def byId8 : List (String × Record) := [("a", [("id", Val.str "a")])]

def presentState (st : StreamState) (mid : String) (m : Record) : StreamState :=
  ⟨dictSet st.last mid (parsedBid m, parsedAsk m),
   dictSet st.lastTradePx mid (parsedLastTrade m)⟩

def presentTob (m : Record) (now : ℚ) : TopOfBook :=
  ⟨parsedBid m, none, parsedAsk m, none, now⟩

def presentTrade (st : StreamState) (mid : String) (m : Record) (now : ℚ) :
    List FeedEvent × List TapeRow :=
  tradeOut mid now (parsedBid m) (parsedAsk m) (parsedLastTrade m)
    ((st.lastTradePx.lookup mid).join)

def presentOut (st : StreamState) (mid : String) (m : Record) (now : ℚ) : MarketOut :=
  ⟨FeedEvent.book mid (presentTob m now) :: (presentTrade st mid m now).1,
   (if st.last.lookup mid ≠ some (parsedBid m, parsedAsk m)
    then [⟨now, mid, "tob", TapePayload.tob (presentTob m now)⟩] else []) ++
     (presentTrade st mid m now).2,
   (if st.last.lookup mid ≠ some (parsedBid m, parsedAsk m) then 1 else 0), 1⟩

/-- Whether a requested market id is effectively found in the snapshot
lookup: a record is present and truthy (records in `by_id` always carry an
`id` field, so the truthiness test never skips a present record). -/
def foundIn (byId : List (String × Record)) (mid : String) : Bool :=
  match byId.lookup mid with
  | some m => !m.isEmpty
  | none => false

theorem lookup_filter_ne {α : Type} (d : List (String × α)) (k k' : String)
    (h : k' ≠ k) :
    (d.filter (fun p => p.1 != k)).lookup k' = d.lookup k' := by
  induction d with
  | nil => simp
  | cons p t ih =>
    by_cases hp : p.1 = k
    · have h1 : (p.1 != k) = false := by simp [hp]
      have h2 : (k' == p.1) = false := by
        simp only [beq_eq_false_iff_ne, ne_eq]
        exact fun hk => h (hk.trans hp)
      simp [List.filter_cons, h1, List.lookup, h2, ih]
    · have h1 : (p.1 != k) = true := by simp [hp]
      simp [List.filter_cons, h1, List.lookup, ih]

theorem lookup_dictSet_self {α : Type} (d : List (String × α)) (k : String) (v : α) :
    (dictSet d k v).lookup k = some v := by
  simp [dictSet, List.lookup]

theorem lookup_dictSet_ne {α : Type} (d : List (String × α)) (k k' : String) (v : α)
    (h : k' ≠ k) :
    (dictSet d k v).lookup k' = d.lookup k' := by
  have h2 : (k' == k) = false := by simpa using h
  simp [dictSet, List.lookup, h2, lookup_filter_ne _ _ _ h]

theorem processMarket_absent (now : ℚ) (byId : List (String × Record))
    (st : StreamState) (mid : String) (h : byId.lookup mid = none) :
    processMarket now byId st mid = (st, emptyOut) := by
  unfold processMarket
  rw [h]

theorem processMarket_present (now : ℚ) (byId : List (String × Record))
    (st : StreamState) (mid : String) (m : Record)
    (h : byId.lookup mid = some m) (hm : m.isEmpty = false) :
    processMarket now byId st mid = (presentState st mid m, presentOut st mid m now) := by
  unfold processMarket
  rw [h]
  simp only [hm, Bool.false_eq_true, if_false]
  rfl

theorem tradeOut_cases (mid : String) (now : ℚ) (bb ba px? prevT : Option ℚ) :
    (tradeOut mid now bb ba px? prevT = ([], [])) ∨
    (∃ t : TradeTick, tradeOut mid now bb ba px? prevT =
      ([FeedEvent.trade mid t], [⟨now, mid, "trade", TapePayload.trade t⟩])) := by
  unfold tradeOut
  cases px? with
  | none => left; rfl
  | some px =>
    by_cases h : some px ≠ prevT
    · right
      exact ⟨⟨mid, px, 1, inferSide px bb ba, now⟩, by simp [h]⟩
    · left; simp [h]

theorem tradeOut_emits_iff (mid : String) (now : ℚ) (bb ba px? prevT : Option ℚ) :
    (tradeOut mid now bb ba px? prevT).1.length
      = (if px?.isSome ∧ px? ≠ prevT then 1 else 0)
    ∧ (tradeOut mid now bb ba px? prevT).2.length
      = (if px?.isSome ∧ px? ≠ prevT then 1 else 0) := by
  unfold tradeOut
  cases px? with
  | none => simp
  | some px =>
    by_cases h : some px ≠ prevT
    · simp [h]
    · simp at h; simp [h]

theorem presentTrade_cases (st : StreamState) (mid : String) (m : Record) (now : ℚ) :
    (presentTrade st mid m now = ([], [])) ∨
    (∃ t : TradeTick, presentTrade st mid m now =
      ([FeedEvent.trade mid t], [⟨now, mid, "trade", TapePayload.trade t⟩])) :=
  tradeOut_cases mid now (parsedBid m) (parsedAsk m) (parsedLastTrade m)
    ((st.lastTradePx.lookup mid).join)

theorem presentOut_book_count (st : StreamState) (mid : String) (m : Record) (now : ℚ) :
    bookCountFor (presentOut st mid m now).events mid = 1 := by
  rcases presentTrade_cases st mid m now with h | ⟨t, h⟩ <;>
    simp [bookCountFor, presentOut, h, FeedEvent.isBook, FeedEvent.marketId]

theorem presentOut_events_market (st : StreamState) (mid : String) (m : Record) (now : ℚ) :
    ∀ e ∈ (presentOut st mid m now).events, e.marketId = mid := by
  rcases presentTrade_cases st mid m now with h | ⟨t, h⟩ <;>
    simp [presentOut, h, FeedEvent.marketId]

theorem presentOut_tape_market (st : StreamState) (mid : String) (m : Record) (now : ℚ) :
    ∀ r ∈ (presentOut st mid m now).tape, r.market_id = mid := by
  rcases presentTrade_cases st mid m now with h | ⟨t, h⟩ <;>
    (simp only [presentOut, h]; split <;> simp)

theorem processMarket_empty (now : ℚ) (byId : List (String × Record))
    (st : StreamState) (mid : String) (m : Record)
    (h : byId.lookup mid = some m) (hm : m.isEmpty = true) :
    processMarket now byId st mid = (st, emptyOut) := by
  unfold processMarket
  rw [h]
  simp [hm]

theorem processMarket_cases (now : ℚ) (byId : List (String × Record))
    (st : StreamState) (mid : String) :
    (foundIn byId mid = false ∧ processMarket now byId st mid = (st, emptyOut)) ∨
    (∃ m, byId.lookup mid = some m ∧ m.isEmpty = false ∧ foundIn byId mid = true ∧
      processMarket now byId st mid = (presentState st mid m, presentOut st mid m now)) := by
  cases h : byId.lookup mid with
  | none =>
    left
    exact ⟨by simp [foundIn, h], processMarket_absent now byId st mid h⟩
  | some m =>
    by_cases hm : m.isEmpty
    · left
      exact ⟨by simp [foundIn, h, hm], processMarket_empty now byId st mid m h hm⟩
    · right
      exact ⟨m, rfl, by simpa using hm, by simp [foundIn, h, hm],
        processMarket_present now byId st mid m h (by simpa using hm)⟩

theorem processMarket_total_book (now : ℚ) (byId : List (String × Record))
    (st : StreamState) (mid : String) :
    ((processMarket now byId st mid).2.events.filter (fun e => e.isBook)).length
      = (if foundIn byId mid then 1 else 0) := by
  rcases processMarket_cases now byId st mid with ⟨hf, hp⟩ | ⟨m, _, _, hf, hp⟩ <;>
    rw [hp, hf]
  · simp [emptyOut]
  · rcases presentTrade_cases st mid m now with h | ⟨t, h⟩ <;>
      simp [presentOut, h, FeedEvent.isBook]

theorem processMarket_events_props (now : ℚ) (byId : List (String × Record))
    (st : StreamState) (mid : String) :
    ∀ e ∈ (processMarket now byId st mid).2.events,
      e.marketId = mid ∧ foundIn byId mid = true := by
  rcases processMarket_cases now byId st mid with ⟨hf, hp⟩ | ⟨m, _, _, hf, hp⟩ <;>
    rw [hp]
  · simp [emptyOut]
  · exact fun e he => ⟨presentOut_events_market st mid m now e he, hf⟩

theorem processMarket_tape_props (now : ℚ) (byId : List (String × Record))
    (st : StreamState) (mid : String) :
    ∀ r ∈ (processMarket now byId st mid).2.tape,
      r.market_id = mid ∧ foundIn byId mid = true := by
  rcases processMarket_cases now byId st mid with ⟨hf, hp⟩ | ⟨m, _, _, hf, hp⟩ <;>
    rw [hp]
  · simp [emptyOut]
  · exact fun r hr => ⟨presentOut_tape_market st mid m now r hr, hf⟩

theorem processMarket_book_count (now : ℚ) (byId : List (String × Record))
    (st : StreamState) (mid : String) :
    bookCountFor (processMarket now byId st mid).2.events mid
      = (if foundIn byId mid then 1 else 0) := by
  rcases processMarket_cases now byId st mid with ⟨hf, hp⟩ | ⟨m, _, _, hf, hp⟩ <;>
    rw [hp, hf]
  · simp [emptyOut, bookCountFor]
  · exact presentOut_book_count st mid m now

theorem processWant_total_book (now : ℚ) (byId : List (String × Record)) :
    ∀ (want : List String) (st : StreamState),
    ((processWant now byId st want).2.events.filter (fun e => e.isBook)).length
      = (want.filter (foundIn byId)).length := by
  intro want
  induction want with
  | nil => intro st; simp [processWant, emptyOut]
  | cons mid rest ih =>
    intro st
    simp only [processWant, List.filter_append, List.length_append]
    rw [processMarket_total_book, ih]
    cases h : foundIn byId mid <;> simp [List.filter_cons, h, Nat.add_comm]

theorem processWant_events_props (now : ℚ) (byId : List (String × Record)) :
    ∀ (want : List String) (st : StreamState),
    ∀ e ∈ (processWant now byId st want).2.events,
      e.marketId ∈ want ∧ foundIn byId e.marketId = true := by
  intro want
  induction want with
  | nil => intro st; simp [processWant, emptyOut]
  | cons mid rest ih =>
    intro st e he
    simp only [processWant, List.mem_append] at he
    rcases he with he | he
    · obtain ⟨h1, h2⟩ := processMarket_events_props now byId st mid e he
      exact ⟨by rw [h1]; exact List.mem_cons_self _ _, h1 ▸ h2⟩
    · obtain ⟨h1, h2⟩ := ih _ e he
      exact ⟨List.mem_cons_of_mem _ h1, h2⟩

theorem processWant_tape_props (now : ℚ) (byId : List (String × Record)) :
    ∀ (want : List String) (st : StreamState),
    ∀ r ∈ (processWant now byId st want).2.tape,
      r.market_id ∈ want ∧ foundIn byId r.market_id = true := by
  intro want
  induction want with
  | nil => intro st; simp [processWant, emptyOut]
  | cons mid rest ih =>
    intro st r hr
    simp only [processWant, List.mem_append] at hr
    rcases hr with hr | hr
    · obtain ⟨h1, h2⟩ := processMarket_tape_props now byId st mid r hr
      exact ⟨by rw [h1]; exact List.mem_cons_self _ _, h1 ▸ h2⟩
    · obtain ⟨h1, h2⟩ := ih _ r hr
      exact ⟨List.mem_cons_of_mem _ h1, h2⟩

theorem bookCountFor_eq_zero (evs : List FeedEvent) (mid : String)
    (h : ∀ e ∈ evs, e.marketId ≠ mid) : bookCountFor evs mid = 0 := by
  unfold bookCountFor
  rw [List.filter_eq_nil_iff.mpr]
  · rfl
  · intro e he
    simp [h e he]

theorem processWant_book_count_for (now : ℚ) (byId : List (String × Record)) :
    ∀ (want : List String) (st : StreamState) (mid : String),
    mid ∈ want → want.Nodup → foundIn byId mid = true →
    bookCountFor (processWant now byId st want).2.events mid = 1 := by
  intro want
  induction want with
  | nil => intro st mid h; exact absurd h (List.not_mem_nil _)
  | cons mid' rest ih =>
    intro st mid hmem hnd hf
    have hnd' := hnd
    rw [List.nodup_cons] at hnd'
    simp only [processWant]
    unfold bookCountFor
    rw [List.filter_append, List.length_append]
    rcases List.mem_cons.mp hmem with rfl | hmem'
    · have h1 : bookCountFor (processMarket now byId st mid).2.events mid = 1 := by
        rw [processMarket_book_count, hf]; rfl
      have h2 : bookCountFor (processWant now byId (processMarket now byId st mid).1 rest).2.events mid = 0 := by
        apply bookCountFor_eq_zero
        intro e he
        intro hc
        have := (processWant_events_props now byId rest _ e he).1
        rw [hc] at this
        exact hnd'.1 this
      unfold bookCountFor at h1 h2
      rw [h1, h2]
    · have h1 : bookCountFor (processMarket now byId st mid').2.events mid = 0 := by
        apply bookCountFor_eq_zero
        intro e he hc
        have := (processMarket_events_props now byId st mid' e he).1
        rw [hc] at this
        exact hnd'.1 (this ▸ hmem')
      have h2 := ih (processMarket now byId st mid').1 mid hmem' hnd'.2 hf
      unfold bookCountFor at h1 h2
      rw [h1, h2]

theorem buildById_lookup_has_id (data : List Record) :
    ∀ (mid : String) (m : Record),
    (buildById data).lookup mid = some m →
    ∃ v, m.lookup "id" = some v ∧ v ≠ Val.null := by
  unfold buildById
  suffices h : ∀ (acc : List (String × Record)),
      (∀ mid m, acc.lookup mid = some m → ∃ v, m.lookup "id" = some v ∧ v ≠ Val.null) →
      ∀ mid m, (data.foldl (fun acc m =>
        match m.lookup "id" with
        | none => acc
        | some v => if v = Val.null then acc else dictSet acc (pyStr v) m) acc).lookup mid = some m →
      ∃ v, m.lookup "id" = some v ∧ v ≠ Val.null by
    exact h [] (by intro mid m hm; simp [List.lookup] at hm)
  induction data with
  | nil => intro acc hacc; exact hacc
  | cons rec0 rest ih =>
    intro acc hacc
    simp only [List.foldl_cons]
    apply ih
    intro mid m hm
    rcases hv : rec0.lookup "id" with _ | v
    · simp only [hv] at hm
      exact hacc mid m hm
    · simp only [hv] at hm
      by_cases hnull : v = Val.null
      · rw [if_pos hnull] at hm
        exact hacc mid m hm
      · rw [if_neg hnull] at hm
        by_cases hk : mid = pyStr v
        · subst hk
          rw [lookup_dictSet_self] at hm
          obtain rfl : rec0 = m := by injection hm
          exact ⟨v, hv, hnull⟩
        · rw [lookup_dictSet_ne _ _ _ _ hk] at hm
          exact hacc mid m hm

theorem foundIn_buildById (data : List Record) (mid : String) :
    foundIn (buildById data) mid = ((buildById data).lookup mid).isSome := by
  unfold foundIn
  cases h : (buildById data).lookup mid with
  | none => rfl
  | some m =>
    obtain ⟨v, hv, _⟩ := buildById_lookup_has_id data mid m h
    have hne : m ≠ [] := by
      intro he
      rw [he] at hv
      simp [List.lookup] at hv
    simp [List.isEmpty_iff, hne]

theorem processWant_filter_absent (now : ℚ) (byId : List (String × Record))
    (mid : String) (h : byId.lookup mid = none) :
    ∀ (want : List String) (st : StreamState),
    processWant now byId st (want.filter (fun x => x != mid))
      = processWant now byId st want := by
  intro want
  induction want with
  | nil => intro st; rfl
  | cons x rest ih =>
    intro st
    by_cases hx : x = mid
    · subst hx
      simp only [List.filter_cons, bne_self_eq_false, Bool.false_eq_true, if_false, ih]
      conv_rhs => rw [processWant]
      rw [processMarket_absent now byId st x h]
      simp [emptyOut]
    · have hb : (x != mid) = true := by simpa using hx
      simp only [List.filter_cons, hb, if_true]
      conv_lhs => rw [processWant]
      conv_rhs => rw [processWant]
      rw [ih]

theorem processWant_state_frame (now : ℚ) (byId : List (String × Record))
    (mid : String) (h : byId.lookup mid = none) :
    ∀ (want : List String) (st : StreamState),
    ((processWant now byId st want).1.last.lookup mid = st.last.lookup mid) ∧
    ((processWant now byId st want).1.lastTradePx.lookup mid
      = st.lastTradePx.lookup mid) := by
  intro want
  induction want with
  | nil => intro st; exact ⟨rfl, rfl⟩
  | cons x rest ih =>
    intro st
    by_cases hx : x = mid
    · subst hx
      simp only [processWant, processMarket_absent now byId st x h]
      exact ih st
    · rcases processMarket_cases now byId st x with ⟨_, hp⟩ | ⟨m, _, _, _, hp⟩
      · simp only [processWant, hp]
        exact ih st
      · simp only [processWant, hp]
        have h1 := ih (presentState st x m)
        have hmx : mid ≠ x := fun he => hx he.symm
        constructor
        · rw [h1.1]
          exact lookup_dictSet_ne _ _ _ _ hmx
        · rw [h1.2]
          exact lookup_dictSet_ne _ _ _ _ hmx

/-- C1: in every poll cycle with a successful fetch, every requested market
id that is present in the snapshot lookup gets exactly one `BookEvent`
(whether or not its price pair changed — the state `st` is arbitrary), and
the total number of `BookEvent`s yielded equals the number of requested
market ids found in the lookup. -/
theorem claim_C1_one_book_event_per_found_market
    (pollSecs : ℚ) (lim : ℤ) (st : StreamState) (provider : List String)
    (data : List Record) (obsTs statusTs : ℚ)
    (hnd : (wantOf provider).Nodup) :
    (∀ mid ∈ wantOf provider,
      ((buildById data).lookup mid).isSome →
      bookCountFor
        (processCycle pollSecs lim st
          ⟨provider, Except.ok data, obsTs, statusTs⟩).2.events mid = 1)
    ∧ ((processCycle pollSecs lim st
          ⟨provider, Except.ok data, obsTs, statusTs⟩).2.events.filter
            (fun e => e.isBook)).length
      = ((wantOf provider).filter
          (fun mid => ((buildById data).lookup mid).isSome)).length := by
  constructor
  · intro mid hmem hsome
    have hf : foundIn (buildById data) mid = true := by
      rw [foundIn_buildById]
      exact hsome
    have hne : (wantOf provider).isEmpty = false := by
      cases hwe : wantOf provider with
      | nil => rw [hwe] at hmem; cases hmem
      | cons a l => rfl
    simp only [processCycle, hne, Bool.false_eq_true, if_false]
    exact processWant_book_count_for obsTs (buildById data) (wantOf provider) st
      mid hmem hnd hf
  · by_cases hw : (wantOf provider).isEmpty
    · have hnil : wantOf provider = [] := List.isEmpty_iff.mp hw
      simp [processCycle, hnil]
    · have hne : (wantOf provider).isEmpty = false := by simpa using hw
      simp only [processCycle, hne, Bool.false_eq_true, if_false]
      rw [processWant_total_book]
      congr 1
      apply List.filter_congr
      intro mid _
      exact foundIn_buildById data mid

theorem presentOut_tob_tape_count (st : StreamState) (mid : String) (m : Record) (now : ℚ) :
    tapeCountFor (presentOut st mid m now).tape "tob" mid
      = (if st.last.lookup mid ≠ some (parsedBid m, parsedAsk m) then 1 else 0) := by
  rcases presentTrade_cases st mid m now with h | ⟨t, h⟩ <;>
    (simp only [tapeCountFor, presentOut, h]; split <;> simp)

theorem presentOut_trade_count (st : StreamState) (mid : String) (m : Record) (now : ℚ) :
    tradeCountFor (presentOut st mid m now).events mid
      = (presentTrade st mid m now).1.length
    ∧ tapeCountFor (presentOut st mid m now).tape "trade" mid
      = (presentTrade st mid m now).2.length := by
  constructor
  · rcases presentTrade_cases st mid m now with h | ⟨t, h⟩ <;>
      simp [tradeCountFor, presentOut, h, FeedEvent.isBook, FeedEvent.marketId]
  · rcases presentTrade_cases st mid m now with h | ⟨t, h⟩ <;>
      (simp only [tapeCountFor, presentOut, h]; split <;> simp)

theorem presentTrade_self (st : StreamState) (mid : String) (m : Record) (now2 : ℚ) :
    presentTrade (presentState st mid m) mid m now2 = ([], []) := by
  unfold presentTrade presentState tradeOut
  simp only [lookup_dictSet_self, Option.join]
  cases hp : parsedLastTrade m with
  | none => rfl
  | some px => simp

/-- C2: for a requested-and-present market, a `tob` tape row is written iff
the newly parsed `(best_bid, best_ask)` pair differs from the stored
previous pair (a first observation, stored pair absent, always differs);
re-processing the same snapshot record in the next cycle therefore writes
nothing to the tape while still yielding exactly one `BookEvent`. -/
theorem claim_C2_tob_tape_iff_pair_changed
    (now now2 : ℚ) (byId : List (String × Record)) (st : StreamState)
    (mid : String) (m : Record)
    (h : byId.lookup mid = some m) (hm : m.isEmpty = false) :
    (tapeCountFor (processMarket now byId st mid).2.tape "tob" mid
      = if st.last.lookup mid ≠ some (parsedBid m, parsedAsk m) then 1 else 0)
    ∧ (st.last.lookup mid = none →
        tapeCountFor (processMarket now byId st mid).2.tape "tob" mid = 1)
    ∧ ((processMarket now2 byId (processMarket now byId st mid).1 mid).2.tape = [])
    ∧ (bookCountFor
        (processMarket now2 byId (processMarket now byId st mid).1 mid).2.events mid = 1)
    ∧ ((processMarket now2 byId (processMarket now byId st mid).1 mid).2.events.length = 1) := by
  rw [processMarket_present now byId st mid m h hm,
      processMarket_present now2 byId (presentState st mid m) mid m h hm]
  refine ⟨presentOut_tob_tape_count st mid m now, ?_, ?_, ?_, ?_⟩
  · intro h0
    rw [presentOut_tob_tape_count st mid m now, if_pos]
    rw [h0]
    exact fun hc => Option.noConfusion hc
  · have hlook : List.lookup mid (presentState st mid m).last
        = some (parsedBid m, parsedAsk m) :=
      lookup_dictSet_self st.last mid (parsedBid m, parsedAsk m)
    simp [presentOut, presentTrade_self st mid m now2, hlook]
  · rw [presentOut_book_count]
  · simp [presentOut, presentTrade_self st mid m now2]

/-- C3: for a requested-and-present market, a `TradeEvent` is yielded (and a
`trade` tape row written) iff the parsed last-trade price is present and
differs from the stored previous value; the stored value is updated
unconditionally. -/
theorem claim_C3_trade_event_iff_last_trade_changed
    (now : ℚ) (byId : List (String × Record)) (st : StreamState)
    (mid : String) (m : Record)
    (h : byId.lookup mid = some m) (hm : m.isEmpty = false) :
    (tradeCountFor (processMarket now byId st mid).2.events mid
      = if (parsedLastTrade m).isSome
           ∧ parsedLastTrade m ≠ (st.lastTradePx.lookup mid).join then 1 else 0)
    ∧ (tapeCountFor (processMarket now byId st mid).2.tape "trade" mid
      = if (parsedLastTrade m).isSome
           ∧ parsedLastTrade m ≠ (st.lastTradePx.lookup mid).join then 1 else 0)
    ∧ ((processMarket now byId st mid).1.lastTradePx.lookup mid
        = some (parsedLastTrade m)) := by
  rw [processMarket_present now byId st mid m h hm]
  refine ⟨?_, ?_, ?_⟩
  · rw [(presentOut_trade_count st mid m now).1]
    exact (tradeOut_emits_iff mid now (parsedBid m) (parsedAsk m) (parsedLastTrade m)
      ((st.lastTradePx.lookup mid).join)).1
  · rw [(presentOut_trade_count st mid m now).2]
    exact (tradeOut_emits_iff mid now (parsedBid m) (parsedAsk m) (parsedLastTrade m)
      ((st.lastTradePx.lookup mid).join)).2
  · exact lookup_dictSet_self st.lastTradePx mid (parsedLastTrade m)

/-- C8: a requested market id absent from the snapshot lookup is a complete
no-op for the cycle: its own processing returns the state unchanged with no
output, dropping it from the requested list changes nothing at all, no event
or tape row for it is produced, and both per-market state maps are unchanged
at that id. -/
theorem claim_C8_absent_market_is_noop
    (now : ℚ) (byId : List (String × Record)) (st : StreamState)
    (mid : String) (want : List String) (h : byId.lookup mid = none) :
    (processMarket now byId st mid = (st, emptyOut))
    ∧ (processWant now byId st (want.filter (fun x => x != mid))
        = processWant now byId st want)
    ∧ (((processWant now byId st want).2.events.filter
        (fun e => e.marketId == mid)).length = 0)
    ∧ (((processWant now byId st want).2.tape.filter
        (fun r => r.market_id == mid)).length = 0)
    ∧ ((processWant now byId st want).1.last.lookup mid = st.last.lookup mid)
    ∧ ((processWant now byId st want).1.lastTradePx.lookup mid
        = st.lastTradePx.lookup mid) := by
  have hff : foundIn byId mid = false := by simp [foundIn, h]
  refine ⟨processMarket_absent now byId st mid h,
    processWant_filter_absent now byId mid h want st, ?_, ?_,
    (processWant_state_frame now byId mid h want st).1,
    (processWant_state_frame now byId mid h want st).2⟩
  · rw [List.filter_eq_nil_iff.mpr]
    · rfl
    · intro e he
      have h2 := (processWant_events_props now byId want st e he).2
      simp only [beq_iff_eq]
      intro hc
      rw [hc, hff] at h2
      cases h2
  · rw [List.filter_eq_nil_iff.mpr]
    · rfl
    · intro r hr
      have h2 := (processWant_tape_props now byId want st r hr).2
      simp only [beq_iff_eq]
      intro hc
      rw [hc, hff] at h2
      cases h2

/-- C4 counterexample: in the record
`{"bestBid": 0, "best_bid": 1}` the first spelling `bestBid` is present
(and non-null) with value `0`, so first-present-wins would resolve
`best_bid` to `0.0`; the code resolves it to `1.0` instead, because
Python's `or` falls through on the falsy value `0`. -/
theorem claim_C4_counterexample :
    (([("bestBid", Val.num 0), ("best_bid", Val.num 1)] : Record).lookup "bestBid"
      = some (Val.num 0))
    ∧ toFloat? (Val.num 0) = some 0
    ∧ parsedBid [("bestBid", Val.num 0), ("best_bid", Val.num 1)] = some 1
    ∧ some (1 : ℚ) ≠ (some (0 : ℚ)) := by
  refine ⟨rfl, rfl, rfl, ?_⟩
  intro hc
  injection hc with hc
  exact absurd hc (by decide)

/-- C4 (amended): each price attribute is resolved by first-TRUTHY-wins over
the two accepted spellings — the camelCase value is used exactly when it is
truthy (non-null, non-zero, non-empty), otherwise the snake_case value is
used — and the chosen value is coerced to a float, with null or coercion
failure yielding an absent value rather than an error. -/
theorem claim_C4_first_truthy_resolution :
    (∀ (m : Record) (k1 k2 : String), resolveField m k1 k2 = firstTruthyWins m k1 k2)
    ∧ toFloat? Val.null = none
    ∧ toFloat? (Val.str "not a price") = none
    ∧ (∀ q : ℚ, toFloat? (Val.num q) = some q) := by
  refine ⟨?_, rfl, by decide, fun q => rfl⟩
  intro m k1 k2
  unfold resolveField firstTruthyWins pyOr
  by_cases h : (m.getv k1).truthy <;> simp [h]

set_option maxRecDepth 4000

/-- C5 counterexample: at the IEEE-double values the program actually holds
for the claim's own example (`float("0.41")`, `float("0.40")`,
`float("0.42")`), neither tolerance branch fires, and the rounded midpoint
`0.5 * (0.40 + 0.42)` is the double `3692951694443807/2^53`
(`0.41000000000000003...`), strictly greater than the double
`7385903388887613/2^54` (`0.40999999999999997...`) held for `0.41` — so the
`>= midpoint` test fails and the code infers `"sell"`, where the claim says
`"buy"`. -/
theorem claim_C5_counterexample :
    inferSideFloat (fl (41/100)) (some (fl (40/100))) (some (fl (42/100))) = "sell"
    ∧ fl (41/100) < fmul (fl (1/2)) (fadd (fl (40/100)) (fl (42/100)))
    ∧ (fl (41/100)).num = 7385903388887613
    ∧ (fl (41/100)).den = 18014398509481984
    ∧ (fmul (fl (1/2)) (fadd (fl (40/100)) (fl (42/100)))).num = 3692951694443807
    ∧ (fmul (fl (1/2)) (fadd (fl (40/100)) (fl (42/100)))).den = 9007199254740992
    ∧ ("sell" : String) ≠ "buy" := by
  refine ⟨?_, ?_, ?_, ?_, ?_, ?_, ?_⟩ <;> with_unfolding_all decide

/-- C5 (amended): whenever a trade print is emitted its side follows the
claimed precedence, carried out in IEEE binary64 as the program does —
match the ask within the double `1e-9` ⇒ buy; else match the bid ⇒ sell;
else with both quotes present compare to the double midpoint
`0.5 * (bid + ask)` (≥ ⇒ buy, < ⇒ sell); else buy. For the concrete example
`best_bid=0.40`, `best_ask=0.42`: a last trade of `0.42` gives `buy`,
`0.40` gives `sell`, and `0.41` gives `sell`, because the rounded midpoint
exceeds the double for `0.41`. -/
theorem claim_C5_side_inference_double :
    (∀ (px a : ℚ) (b? : Option ℚ), |fsub px a| < tolF →
        inferSideFloat px b? (some a) = "buy")
    ∧ (∀ (px b : ℚ) (a? : Option ℚ),
        (∀ a, a? = some a → ¬(|fsub px a| < tolF)) → |fsub px b| < tolF →
        inferSideFloat px (some b) a? = "sell")
    ∧ (∀ (px b a : ℚ), ¬(|fsub px a| < tolF) → ¬(|fsub px b| < tolF) →
        px ≥ fmul (fl (1/2)) (fadd b a) → inferSideFloat px (some b) (some a) = "buy")
    ∧ (∀ (px b a : ℚ), ¬(|fsub px a| < tolF) → ¬(|fsub px b| < tolF) →
        px < fmul (fl (1/2)) (fadd b a) → inferSideFloat px (some b) (some a) = "sell")
    ∧ (∀ (px a : ℚ), ¬(|fsub px a| < tolF) → inferSideFloat px none (some a) = "buy")
    ∧ (∀ (px b : ℚ), ¬(|fsub px b| < tolF) → inferSideFloat px (some b) none = "buy")
    ∧ (∀ px : ℚ, inferSideFloat px none none = "buy")
    ∧ inferSideFloat (fl (42/100)) (some (fl (40/100))) (some (fl (42/100))) = "buy"
    ∧ inferSideFloat (fl (40/100)) (some (fl (40/100))) (some (fl (42/100))) = "sell"
    ∧ inferSideFloat (fl (41/100)) (some (fl (40/100))) (some (fl (42/100))) = "sell" := by
  refine ⟨?_, ?_, ?_, ?_, ?_, ?_, ?_, ?_, ?_, ?_⟩
  · intro px a b? hcl
    cases b? <;> simp [inferSideFloat, hcl]
  · intro px b a? hna hb
    cases a? with
    | none => simp [inferSideFloat, hb]
    | some a => simp [inferSideFloat, hna a rfl, hb]
  · intro px b a hna hnb hge
    have hge2 : fmul (fl ((2 : ℚ)⁻¹)) (fadd b a) ≤ px := by
      rw [inv_eq_one_div]
      exact hge
    simp [inferSideFloat, hna, hnb, hge2]
  · intro px b a hna hnb hlt
    have hlt2 : px < fmul (fl ((2 : ℚ)⁻¹)) (fadd b a) := by
      rw [inv_eq_one_div]
      exact hlt
    simp [inferSideFloat, hna, hnb, not_le.mpr hlt2]
  · intro px a hna
    simp [inferSideFloat, hna]
  · intro px b hnb
    simp [inferSideFloat, hnb]
  · intro px
    simp [inferSideFloat]
  · with_unfolding_all decide
  · with_unfolding_all decide
  · with_unfolding_all decide

/-- C6: a cycle whose fetch raises produces no events and no tape rows,
performs exactly one `feed.gamma` status upsert at level `error` whose
detail is the exception's type name and message, leaves the observation
state untouched, and the loop goes on to process the remaining cycles
exactly as it would have without the failing cycle. -/
theorem claim_C6_error_cycle_resilience
    (pollSecs : ℚ) (lim : ℤ) (st : StreamState) (c : CycleIn)
    (rest : List CycleIn) (e : Exc)
    (hw : wantOf c.providerOut ≠ []) (he : c.fetch = Except.error e) :
    (processCycle pollSecs lim st c
      = (st, ⟨[], [], [⟨"feed.gamma", "error", "gamma feed failed",
          e.name ++ ": " ++ e.msg, c.statusTs⟩]⟩))
    ∧ ((runCycles pollSecs lim st (c :: rest)).2.events
        = (runCycles pollSecs lim st rest).2.events)
    ∧ ((runCycles pollSecs lim st (c :: rest)).2.tape
        = (runCycles pollSecs lim st rest).2.tape)
    ∧ ((runCycles pollSecs lim st (c :: rest)).2.statuses
        = ⟨"feed.gamma", "error", "gamma feed failed",
            e.name ++ ": " ++ e.msg, c.statusTs⟩
          :: (runCycles pollSecs lim st rest).2.statuses)
    ∧ ((runCycles pollSecs lim st (c :: rest)).1
        = (runCycles pollSecs lim st rest).1) := by
  have hne : (wantOf c.providerOut).isEmpty = false := by
    cases hwe : wantOf c.providerOut with
    | nil => exact absurd hwe hw
    | cons a l => rfl
  have h1 : processCycle pollSecs lim st c
      = (st, ⟨[], [], [⟨"feed.gamma", "error", "gamma feed failed",
          e.name ++ ": " ++ e.msg, c.statusTs⟩]⟩) := by
    simp only [processCycle, hne, Bool.false_eq_true, if_false, he]
  refine ⟨h1, ?_, ?_, ?_, ?_⟩ <;>
    simp only [runCycles, h1, List.nil_append, List.append_nil, List.cons_append]

/-- C7: `ShadowBroker.place_limit` always returns (never raises) an order
with status `rejected` and zero filled size, carrying the supplied fresh
(non-empty) order id and creation timestamp and echoing the request's
fields, and performs exactly one order-record persistence whose metadata is
the request's metadata tagged `execution_mode = shadow`. -/
theorem claim_C7_shadow_place_limit (req : OrderRequest) (oid : String)
    (now : ℚ) (hoid : oid ≠ "") :
    ((ShadowBroker.place_limit req oid now).1.status = "rejected")
    ∧ ((ShadowBroker.place_limit req oid now).1.filled_size = 0)
    ∧ ((ShadowBroker.place_limit req oid now).1.order_id = oid)
    ∧ ((ShadowBroker.place_limit req oid now).1.order_id ≠ "")
    ∧ ((ShadowBroker.place_limit req oid now).1.created_ts = now)
    ∧ ((ShadowBroker.place_limit req oid now).1.market_id = req.market_id)
    ∧ ((ShadowBroker.place_limit req oid now).1.side = req.side)
    ∧ ((ShadowBroker.place_limit req oid now).1.price = req.price)
    ∧ ((ShadowBroker.place_limit req oid now).1.size = req.size)
    ∧ ((ShadowBroker.place_limit req oid now).2.length = 1)
    ∧ (∀ rec ∈ (ShadowBroker.place_limit req oid now).2,
        rec.order = (ShadowBroker.place_limit req oid now).1
        ∧ rec.meta.lookup "execution_mode" = some (Val.str "shadow")
        ∧ ∀ k, k ≠ "execution_mode" →
            rec.meta.lookup k = (req.meta.getD []).lookup k) := by
  refine ⟨rfl, rfl, rfl, hoid, rfl, rfl, rfl, rfl, rfl, rfl, ?_⟩
  intro rec hrec
  have hr : rec = ⟨(ShadowBroker.place_limit req oid now).1,
      dictSet (req.meta.getD []) "execution_mode" (Val.str "shadow")⟩ := by
    simpa [ShadowBroker.place_limit] using hrec
  subst hr
  refine ⟨rfl, lookup_dictSet_self _ _ _, ?_⟩
  intro k hk
  exact lookup_dictSet_ne _ _ _ _ hk

/-- C9: the shadow backend's `on_book` and `on_trade` and the base class
default `on_trade` all return the empty fill list on every input. -/
theorem claim_C9_no_fills (mid : String) (tob : TopOfBook) (tr : TradeTick) :
    ShadowBroker.on_book mid tob = []
    ∧ ShadowBroker.on_trade mid tr = []
    ∧ Broker.on_trade_default mid tr = [] :=
  ⟨rfl, rfl, rfl⟩

/-- C10: at the heap level, `place_limit` mutates only a freshly allocated
copy of the caller's metadata dict: every pre-existing dict (the caller's
included) is untouched, the recorded dict lives at a fresh address, and an
absent metadata mapping is treated as empty. -/
theorem claim_C10_meta_not_aliased (h : List Meta) (r : ℕ) (hr : r < h.length) :
    (∀ i, i < h.length →
      (ShadowBroker.place_limit_metaHeap h (some r)).1.get? i = h.get? i)
    ∧ ((ShadowBroker.place_limit_metaHeap h (some r)).2 ≠ r)
    ∧ ((ShadowBroker.place_limit_metaHeap h (some r)).1.get?
          (ShadowBroker.place_limit_metaHeap h (some r)).2
        = some (dictSet (h.getD r []) "execution_mode" (Val.str "shadow")))
    ∧ (∀ h' : List Meta,
        (ShadowBroker.place_limit_metaHeap h' none).1.get?
            (ShadowBroker.place_limit_metaHeap h' none).2
          = some (dictSet [] "execution_mode" (Val.str "shadow"))) := by
  refine ⟨?_, ?_, ?_, ?_⟩
  · intro i hi
    exact List.get?_append hi
  · exact fun hc => absurd (hc ▸ hr) (lt_irrefl _)
  · show (h ++ [_]).get? h.length = _
    rw [List.get?_concat_length]
  · intro h'
    show (h' ++ [_]).get? h'.length = _
    rw [List.get?_concat_length]

/-- Witness for C1 at a concrete cycle: two requested markets, one present. -/
theorem claim_C1_one_book_event_per_found_market_witness :
    (wantOf ["m1", "m2"]).Nodup
    ∧ ("m1" ∈ wantOf ["m1", "m2"])
    ∧ ((sampleById.lookup "m1").isSome)
    ∧ bookCountFor
        (processCycle 1 500 ⟨[], []⟩
          ⟨["m1", "m2"], Except.ok [mRec], 0, 1⟩).2.events "m1" = 1 :=
  ⟨by decide, by decide, by decide,
   (claim_C1_one_book_event_per_found_market 1 500 ⟨[], []⟩ ["m1", "m2"]
      [mRec] 0 1 (by decide)).1 "m1" (by decide) (by decide)⟩

/-- Witness for C2 at a concrete market: first observation writes one `tob`
row, re-observing the identical record writes nothing and yields one
`BookEvent`. -/
theorem claim_C2_tob_tape_iff_pair_changed_witness :
    (sampleById.lookup "m1" = some mRec)
    ∧ (mRec.isEmpty = false)
    ∧ ((⟨[], []⟩ : StreamState).last.lookup "m1" = none)
    ∧ tapeCountFor (processMarket 0 sampleById ⟨[], []⟩ "m1").2.tape "tob" "m1" = 1
    ∧ (processMarket 7 sampleById
        (processMarket 0 sampleById ⟨[], []⟩ "m1").1 "m1").2.tape = []
    ∧ bookCountFor (processMarket 7 sampleById
        (processMarket 0 sampleById ⟨[], []⟩ "m1").1 "m1").2.events "m1" = 1 :=
  ⟨by decide, by decide, by decide,
   (claim_C2_tob_tape_iff_pair_changed 0 7 sampleById ⟨[], []⟩ "m1" mRec
      (by decide) (by decide)).2.1 rfl,
   (claim_C2_tob_tape_iff_pair_changed 0 7 sampleById ⟨[], []⟩ "m1" mRec
      (by decide) (by decide)).2.2.1,
   (claim_C2_tob_tape_iff_pair_changed 0 7 sampleById ⟨[], []⟩ "m1" mRec
      (by decide) (by decide)).2.2.2.1⟩

/-- Witness for C3 at a concrete market. -/
theorem claim_C3_trade_event_iff_last_trade_changed_witness :
    (sampleById.lookup "m1" = some mRec)
    ∧ (mRec.isEmpty = false)
    ∧ tradeCountFor (processMarket 0 sampleById ⟨[], []⟩ "m1").2.events "m1"
        = (if (parsedLastTrade mRec).isSome
             ∧ parsedLastTrade mRec
               ≠ (((⟨[], []⟩ : StreamState)).lastTradePx.lookup "m1").join
           then 1 else 0)
    ∧ (processMarket 0 sampleById ⟨[], []⟩ "m1").1.lastTradePx.lookup "m1"
        = some (parsedLastTrade mRec) :=
  ⟨by decide, by decide,
   (claim_C3_trade_event_iff_last_trade_changed 0 sampleById ⟨[], []⟩ "m1" mRec
      (by decide) (by decide)).1,
   (claim_C3_trade_event_iff_last_trade_changed 0 sampleById ⟨[], []⟩ "m1" mRec
      (by decide) (by decide)).2.2⟩

/-- Witness for the amended C5: an ask hit infers `buy`, a bid hit infers
`sell`, at double precision. -/
theorem claim_C5_side_inference_double_witness :
    inferSideFloat 2 (some 1) (some 2) = "buy"
    ∧ inferSideFloat 1 (some 1) (some 3) = "sell" :=
  ⟨claim_C5_side_inference_double.1 2 2 (some 1) (by with_unfolding_all decide),
   claim_C5_side_inference_double.2.1 1 1 (some 3)
     (by
       intro a ha
       injection ha with ha
       subst ha
       with_unfolding_all decide)
     (by with_unfolding_all decide)⟩

/-- Witness for C6 at a concrete failing cycle. -/
theorem claim_C6_error_cycle_resilience_witness :
    (wantOf cErr.providerOut ≠ [])
    ∧ processCycle 1 500 ⟨[], []⟩ cErr
        = (⟨[], []⟩, ⟨[], [],
            [⟨"feed.gamma", "error", "gamma feed failed",
              "ClientConnectorError" ++ ": " ++ "cannot connect", 1⟩]⟩) :=
  ⟨by decide,
   (claim_C6_error_cycle_resilience 1 500 ⟨[], []⟩ cErr []
      ⟨"ClientConnectorError", "cannot connect"⟩ (by decide) rfl).1⟩

/-- Witness for C7 at a concrete request. -/
theorem claim_C7_shadow_place_limit_witness :
    ("ord-1" ≠ "")
    ∧ (ShadowBroker.place_limit sampleReq "ord-1" 0).1.status = "rejected"
    ∧ (ShadowBroker.place_limit sampleReq "ord-1" 0).1.filled_size = 0
    ∧ (ShadowBroker.place_limit sampleReq "ord-1" 0).1.order_id ≠ ""
    ∧ (ShadowBroker.place_limit sampleReq "ord-1" 0).2.length = 1 :=
  ⟨by decide,
   (claim_C7_shadow_place_limit sampleReq "ord-1" 0 (by decide)).1,
   (claim_C7_shadow_place_limit sampleReq "ord-1" 0 (by decide)).2.1,
   (claim_C7_shadow_place_limit sampleReq "ord-1" 0 (by decide)).2.2.2.1,
   (claim_C7_shadow_place_limit sampleReq "ord-1" 0 (by decide)).2.2.2.2.2.2.2.2.2.1⟩

/-- Witness for C8 at a concrete cycle with market `"x"` absent. -/
theorem claim_C8_absent_market_is_noop_witness :
    (byId8.lookup "x" = none)
    ∧ processMarket 0 byId8 ⟨[], []⟩ "x" = (⟨[], []⟩, emptyOut)
    ∧ ((processWant 0 byId8 ⟨[], []⟩ ["x", "a"]).2.events.filter
        (fun e => e.marketId == "x")).length = 0
    ∧ (processWant 0 byId8 ⟨[], []⟩ ["x", "a"]).1.last.lookup "x"
        = (⟨[], []⟩ : StreamState).last.lookup "x" :=
  ⟨by decide,
   (claim_C8_absent_market_is_noop 0 byId8 ⟨[], []⟩ "x" ["x", "a"] (by decide)).1,
   (claim_C8_absent_market_is_noop 0 byId8 ⟨[], []⟩ "x" ["x", "a"] (by decide)).2.2.1,
   (claim_C8_absent_market_is_noop 0 byId8 ⟨[], []⟩ "x" ["x", "a"] (by decide)).2.2.2.2.1⟩

/-- Witness for C10 at a concrete one-dict heap. -/
theorem claim_C10_meta_not_aliased_witness :
    (0 < ([[("k", Val.str "v")]] : List Meta).length)
    ∧ (ShadowBroker.place_limit_metaHeap [[("k", Val.str "v")]] (some 0)).1.get? 0
        = ([[("k", Val.str "v")]] : List Meta).get? 0
    ∧ (ShadowBroker.place_limit_metaHeap [[("k", Val.str "v")]] (some 0)).2 ≠ 0 :=
  ⟨by decide,
   (claim_C10_meta_not_aliased [[("k", Val.str "v")]] 0 (by decide)).1 0 (by decide),
   (claim_C10_meta_not_aliased [[("k", Val.str "v")]] 0 (by decide)).2.1⟩
